import Mathlib

/-!
# Verification of the disfork fork-triage tool

Shallow embedding of the core of `typed-sigterm/disfork`:

* `analyze_fork` (src/analyzer.rs) — classifies one fork as useless or not,
  modelled over an explicit remote environment (`AnalyzeEnv`) plus an explicit
  completion order for the per-branch comparison tasks (the `JoinSet` consumes
  comparison results in a nondeterministic completion order; theorems quantify
  over any permutation of the branch list).  The function additionally returns
  the trace of remote calls it consumed, in order.
* the batch-collection loop of `main` (src/main.rs) — `collectForkInfos`.
* the per-fork coordinator task of `main` — `forkTaskTrace`, an event trace
  showing when the coordinator-semaphore permit is acquired and released
  relative to the analysis work.
* the `GitHubClient` operations (src/github.rs) — event traces recording
  gateway-semaphore acquire/release around HTTP calls, and the paginated
  `list_branches` walk (the forge's successive page responses are modelled as
  a list; the page number of each request is recorded in the trace).
* `poll_for_token` (src/github.rs) — the OAuth device-flow polling loop,
  modelled over the finite list of token-exchange responses the server will
  return; elapsed time is the accumulated sleep seconds (network time is
  abstracted away), matching the loop's use of `Instant::elapsed`.
-/

namespace Disfork

/-- Owner metadata of a repository: only the `login` field is read. -/
structure Owner where
  login : String
deriving DecidableEq, Repr

/-- The fields of a fork's parent repository that `analyze_fork` reads
(src/analyzer.rs lines 68–83): its name and its optional owner. -/
structure ParentRepo where
  name : String
  owner : Option Owner
deriving DecidableEq, Repr

/-- The fields of `octocrab::models::Repository` used by the analyzer and the
coordinator: name, optional full name, optional owner, `fork` flag, and the
optional parent reference (present only when the upstream is resolvable). -/
structure Repository where
  name : String
  full_name : Option String
  owner : Option Owner
  fork : Option Bool
  parent : Option ParentRepo
deriving DecidableEq, Repr

/-- A branch: only its name is used (src/analyzer.rs line 94). -/
structure Branch where
  name : String
deriving DecidableEq, Repr

/-- `ForkInfo` from src/analyzer.rs: the re-fetched repository snapshot plus
the classification flag. -/
structure ForkInfo where
  repo : Repository
  is_useless : Bool
deriving DecidableEq, Repr

/-- Failure modes of a `compare_commits` call.  The analyzer cannot tell them
apart: in src/analyzer.rs line 120 both arrive as `Err(_)`.  `missingBranch`
is the upstream-ref-not-found case; `transient` is any other transport or API
failure (network failure, non-2xx non-not-found response). -/
inductive CompareError where
  | missingBranch
  | transient (msg : String)
deriving DecidableEq, Repr

/-- Remote calls consumed by `analyze_fork`, recorded in its trace. -/
inductive AEvent where
  | getRepo (owner repo : String)
  | listBranches (owner repo : String)
  | compare (owner repo base head : String)
deriving DecidableEq, Repr

/-- The remote environment one `analyze_fork` run observes: the result of the
single `get_repo` re-fetch, the result of the branch listing, and the result
of each `compare_commits` call keyed by its four string arguments. -/
structure AnalyzeEnv where
  getRepo : String → String → Except String Repository
  listBranches : String → String → Except String (List Branch)
  compare : String → String → String → String → Except CompareError Int
deriving Inhabited

/-- The result-consumption loop of src/analyzer.rs lines 110–126, run over the
comparison results in completion order: stop with `true` at the first ahead-by
count `> 0` or at the first failed comparison (of any kind), else `false`
after all branches.  Also returns the comparison calls consumed. -/
def branchScan (env : AnalyzeEnv) (parentOwner parentName forkOwner : String) :
    List Branch → Bool × List AEvent
  | [] => (false, [])
  | b :: rest =>
    let ev := AEvent.compare parentOwner parentName b.name (forkOwner ++ ":" ++ b.name)
    match env.compare parentOwner parentName b.name (forkOwner ++ ":" ++ b.name) with
    | .ok aheadBy =>
      if 0 < aheadBy then (true, [ev])
      else
        let r := branchScan env parentOwner parentName forkOwner rest
        (r.1, ev :: r.2)
    | .error _ => (true, [ev])

/-- `ForkAnalyzer::analyze_fork` (src/analyzer.rs lines 42–142) over the
environment `env`; `order` is the completion order in which the spawned
per-branch comparison tasks are consumed (a permutation of the fetched branch
list).  Returns the result together with the trace of remote calls consumed. -/
def analyze_fork (maxBranches : Nat) (env : AnalyzeEnv) (repo : Repository)
    (order : List Branch) : Except String ForkInfo × List AEvent :=
  match repo.owner with
  | none => (.error "Fork repository missing owner information", [])
  | some o =>
    match env.getRepo o.login repo.name with
    | .error e => (.error e, [AEvent.getRepo o.login repo.name])
    | .ok fetched =>
      match env.listBranches o.login repo.name with
      | .error e =>
        (.error e, [AEvent.getRepo o.login repo.name, AEvent.listBranches o.login repo.name])
      | .ok branches =>
        let evs0 := [AEvent.getRepo o.login repo.name, AEvent.listBranches o.login repo.name]
        if branches.isEmpty then
          (.ok { repo := fetched, is_useless := true }, evs0)
        else if maxBranches < branches.length then
          (.ok { repo := fetched, is_useless := false }, evs0)
        else
          match fetched.parent with
          | none => (.ok { repo := fetched, is_useless := true }, evs0)
          | some parent =>
            match parent.owner with
            | none => (.error "Parent repository missing owner information", evs0)
            | some po =>
              let scan := branchScan env po.login parent.name o.login order
              (.ok { repo := fetched, is_useless := !scan.1 }, evs0 ++ scan.2)

/-- Concrete fork repository used in witnesses and counterexamples. -/
def repoW : Repository := ⟨"proj", none, some ⟨"alice"⟩, some true, none⟩

/-- Concrete resolvable parent used in witnesses. -/
def parentW : ParentRepo := ⟨"proj", some ⟨"upstream"⟩⟩

/-- The re-fetched snapshot of `repoW`, with a resolvable parent. -/
def fetchedW : Repository :=
  ⟨"proj", some "alice/proj", some ⟨"alice"⟩, some true, some parentW⟩

/-- Environment in which every branch comparison returns ahead-by 0. -/
def envAllZero : AnalyzeEnv :=
  ⟨fun _ _ => .ok fetchedW, fun _ _ => .ok [⟨"main"⟩], fun _ _ _ _ => .ok 0⟩

/-- A re-fetched snapshot with no resolvable parent. -/
def fetchedNoParent : Repository := ⟨"proj", some "alice/proj", some ⟨"alice"⟩, some true, none⟩

/-- Environment: parent unresolvable, two branches fetched. -/
def envTwoBranchesNoParent : AnalyzeEnv :=
  ⟨fun _ _ => .ok fetchedNoParent, fun _ _ => .ok [⟨"main"⟩, ⟨"dev"⟩], fun _ _ _ _ => .ok 0⟩

/-- Environment: parent unresolvable, a single branch fetched. -/
def envOneBranchNoParent : AnalyzeEnv :=
  ⟨fun _ _ => .ok fetchedNoParent, fun _ _ => .ok [⟨"main"⟩], fun _ _ _ _ => .ok 0⟩

/-- Environment: resolvable parent, one branch, whose comparison fails with a
transient transport error (not the missing-upstream-branch case). -/
def envTransientFailure : AnalyzeEnv :=
  ⟨fun _ _ => .ok fetchedW, fun _ _ => .ok [⟨"main"⟩],
    fun _ _ _ _ => .error (.transient "connection reset")⟩

/-- Environment: resolvable parent, two branches, every comparison ahead-by 0. -/
def envTwoBranchesAllZero : AnalyzeEnv :=
  ⟨fun _ _ => .ok fetchedW, fun _ _ => .ok [⟨"main"⟩, ⟨"dev"⟩], fun _ _ _ _ => .ok 0⟩

/-- The result-collection loop of `main` (src/main.rs lines 144–148):
`fork_infos.push(result??)` — each completed task's result is pushed, and the
first per-fork error is propagated out of `main` by `?`. -/
def collectForkInfos : List (Except String ForkInfo) → Except String (List ForkInfo)
  | [] => .ok []
  | .error e :: _ => .error e
  | .ok info :: rest =>
    match collectForkInfos rest with
    | .error e => .error e
    | .ok infos => .ok (info :: infos)

/-- Events of one coordinator task (src/main.rs lines 133–141): acquiring and
releasing the coordinator-semaphore permit, the remote calls consumed by
`analyze_fork`, and the progress-bar increment. -/
inductive CoordEvent where
  | coordAcquire
  | remoteCall (e : AEvent)
  | progressInc
  | coordRelease
deriving DecidableEq, Repr

/-- The event trace of one spawned per-fork task in `main` (src/main.rs lines
133–141): the permit is acquired first, `analyze_fork` runs to completion,
the progress bar is bumped, and the permit is dropped only at the end of the
async block. -/
def forkTaskTrace (maxBranches : Nat) (env : AnalyzeEnv) (repo : Repository)
    (order : List Branch) : List CoordEvent :=
  CoordEvent.coordAcquire ::
    ((analyze_fork maxBranches env repo order).2.map CoordEvent.remoteCall ++
      [CoordEvent.progressInc, CoordEvent.coordRelease])

/-- Counts the remote calls of a coordinator trace that happen while at least
one coordinator permit is held (`d` is the current hold depth). -/
def callsDuringCoordPermit : List CoordEvent → Nat → Nat
  | [], _ => 0
  | CoordEvent.coordAcquire :: r, d => callsDuringCoordPermit r (d + 1)
  | CoordEvent.coordRelease :: r, d => callsDuringCoordPermit r (d - 1)
  | CoordEvent.progressInc :: r, d => callsDuringCoordPermit r d
  | CoordEvent.remoteCall _ :: r, d =>
    (if 0 < d then 1 else 0) + callsDuringCoordPermit r d

/-- Events of `GitHubClient` operations (src/github.rs): acquiring and
releasing a gateway-semaphore permit, and issuing one HTTP request. -/
inductive GhEvent where
  | acquire
  | release
  | http (desc : String)
deriving DecidableEq, Repr

/-- Trace of `get_repo` (src/github.rs lines 177–181): permit acquired, one
request, permit dropped on return. -/
def get_repo_trace (owner repo : String) : List GhEvent :=
  [.acquire, .http (s!"GET /repos/{owner}/{repo}"), .release]

/-- Trace of `compare_commits` (src/github.rs lines 211–229): permit
acquired, one request, permit dropped on return. -/
def compare_commits_trace (owner repo base head : String) : List GhEvent :=
  [.acquire, .http (s!"GET /repos/{owner}/{repo}/compare/{base}...{head}"), .release]

/-- Trace of `delete_repo` (src/github.rs lines 231–235): one request, and no
semaphore interaction anywhere in the function. -/
def delete_repo_trace (owner repo : String) : List GhEvent :=
  [.http (s!"DELETE /repos/{owner}/{repo}")]

/-- The request issued for one page of `list_user_repos`. -/
def userReposPageCall (owner : String) (page perPage : Nat) : String :=
  s!"GET /users/{owner}/repos?per_page={perPage}&page={page}"

/-- Trace of `list_user_repos` (src/github.rs lines 127–150): a page request
per loop iteration, stopping when no next page is signalled — and no
semaphore interaction anywhere in the loop.  The forge's successive page
responses are modelled as a list of (items, has-next) pairs. -/
def list_user_repos_trace (owner : String) :
    Nat → List (List Repository × Bool) → List GhEvent
  | _, [] => []
  | page, (_, hasNext) :: rest =>
    GhEvent.http (userReposPageCall owner page 100) ::
      (if hasNext then list_user_repos_trace owner (page + 1) rest else [])

/-- The request issued for one page of `list_branches`. -/
def branchPageCall (owner repo : String) (page perPage : Nat) : String :=
  s!"GET /repos/{owner}/{repo}/branches?per_page={perPage}&page={page}"

/-- The loop of `list_branches` (src/github.rs lines 183–209), from the
current page number: per iteration, acquire a permit, request the page
(page size 100), release the permit at iteration end, accumulate the items,
and stop as soon as the page carries no next-page signal.  Returns `none` if
the forge's response list runs out while a next page is still signalled. -/
def list_branches_go (owner repo : String) :
    Nat → List (List Branch × Bool) → Option (List Branch) × List GhEvent
  | _, [] => (none, [])
  | page, (items, hasNext) :: rest =>
    let evs : List GhEvent :=
      [.acquire, .http (branchPageCall owner repo page 100), .release]
    if hasNext then
      let r := list_branches_go owner repo (page + 1) rest
      (r.1.map fun tail => items ++ tail, evs ++ r.2)
    else
      (some items, evs)

/-- `list_branches` (src/github.rs lines 183–209): the paginated walk starts
at page 1. -/
def list_branches (owner repo : String) (pages : List (List Branch × Bool)) :
    Option (List Branch) × List GhEvent :=
  list_branches_go owner repo 1 pages

/-- `true` iff every HTTP request of the trace happens while at least one
gateway permit is held (`d` is the current hold depth). -/
def allCallsGated : List GhEvent → Nat → Bool
  | [], _ => true
  | GhEvent.acquire :: r, d => allCallsGated r (d + 1)
  | GhEvent.release :: r, d => allCallsGated r (d - 1)
  | GhEvent.http _ :: r, d => decide (0 < d) && allCallsGated r d

/-- `true` iff the trace is a sequence of acquire/request/release triples:
one permit per request, never held across two requests. -/
def perCallGated : List GhEvent → Bool
  | [] => true
  | GhEvent.acquire :: GhEvent.http _ :: GhEvent.release :: rest => perCallGated rest
  | _ => false

/-- Number of HTTP requests in a gateway trace. -/
def countHttp : List GhEvent → Nat
  | [] => 0
  | GhEvent.http _ :: r => countHttp r + 1
  | _ :: r => countHttp r

/-- Forge responses for the 100/100/37 pagination scenario: pages 1 and 2
signal a next page, page 3 does not. -/
def pages237 : List (List Branch × Bool) :=
  [(List.replicate 100 ⟨"b"⟩, true), (List.replicate 100 ⟨"b"⟩, true),
   (List.replicate 37 ⟨"b"⟩, false)]

/-- The JSON body of one token-exchange response (src/github.rs lines 70–75):
an optional access token, an optional error code, an optional description. -/
structure TokenResponse where
  access_token : Option String
  error : Option String
  error_description : Option String
deriving DecidableEq, Repr

/-- Observable steps of the polling loop: a timed sleep (whole seconds) and
one token-exchange request. -/
inductive PollEv where
  | sleep (secs : Nat)
  | tokenRequest
deriving DecidableEq, Repr

/-- Outcome of running the polling loop against a finite response list:
success with a token, failure with a message, or `pending` — the loop was
still running (about to issue its next request) when the modelled response
list ran out. -/
inductive PollResult where
  | ok (token : String)
  | err (msg : String)
  | pending (pollInterval elapsed : Nat)
deriving DecidableEq, Repr

/-- Whether the loop was still polling when the response list ran out. -/
def PollResult.isPending : PollResult → Bool
  | .pending _ _ => true
  | _ => false

/-- The timeout failure message (src/github.rs lines 50 and 56). -/
def timeoutMsg (expiresIn : Nat) : String :=
  s!"Authorization timed out after {expiresIn} seconds"

/-- The polling loop of `poll_for_token` (src/github.rs lines 48–101) run
against the finite list of token-exchange responses the server will return,
in order.  Elapsed time is the accumulated sleep seconds; each iteration
checks expiry, sleeps the current interval, re-checks expiry, then issues one
request and dispatches on the response: token → success;
`authorization_pending` → loop; `slow_down` → interval + 5 and loop;
`expired_token` / `access_denied` / other codes → fail; a bare description →
fail; none of the three fields → fall through and loop. -/
def poll_for_token_loop (expiresIn : Nat) :
    List TokenResponse → Nat → Nat → PollResult × List PollEv
  | [], pollInterval, elapsed =>
    if expiresIn ≤ elapsed then (.err (timeoutMsg expiresIn), [])
    else if expiresIn ≤ elapsed + pollInterval then
      (.err (timeoutMsg expiresIn), [.sleep pollInterval])
    else (.pending pollInterval (elapsed + pollInterval), [.sleep pollInterval])
  | r :: rest, pollInterval, elapsed =>
    if expiresIn ≤ elapsed then (.err (timeoutMsg expiresIn), [])
    else if expiresIn ≤ elapsed + pollInterval then
      (.err (timeoutMsg expiresIn), [.sleep pollInterval])
    else
      let evs : List PollEv := [.sleep pollInterval, .tokenRequest]
      match r.access_token with
      | some t => (.ok t, evs)
      | none =>
        match r.error with
        | some e =>
          if e = "authorization_pending" then
            let k := poll_for_token_loop expiresIn rest pollInterval (elapsed + pollInterval)
            (k.1, evs ++ k.2)
          else if e = "slow_down" then
            let k := poll_for_token_loop expiresIn rest (pollInterval + 5) (elapsed + pollInterval)
            (k.1, evs ++ k.2)
          else if e = "expired_token" then
            (.err "Device code expired. Please restart authorization.", evs)
          else if e = "access_denied" then
            (.err "Authorization denied on GitHub device flow.", evs)
          else (.err (s!"Authorization failed: {e}"), evs)
        | none =>
          match r.error_description with
          | some d => (.err (s!"Authorization failed: {d}"), evs)
          | none =>
            let k := poll_for_token_loop expiresIn rest pollInterval (elapsed + pollInterval)
            (k.1, evs ++ k.2)

/-- `poll_for_token` (src/github.rs lines 37–102): the loop starts with the
server-provided interval and zero elapsed time. -/
def poll_for_token (responses : List TokenResponse) (interval expiresIn : Nat) :
    PollResult × List PollEv :=
  poll_for_token_loop expiresIn responses interval 0

/-- An `authorization_pending` error response. -/
def pendingResp : TokenResponse := ⟨none, some "authorization_pending", none⟩

/-- A `slow_down` error response. -/
def slowDownResp : TokenResponse := ⟨none, some "slow_down", none⟩

/-- A successful token response. -/
def tokenResp : TokenResponse := ⟨some "gho_token", none, none⟩

/-- A response carrying no token, no error code and no description. -/
def emptyResp : TokenResponse := ⟨none, none, none⟩

/-- Number of token-exchange requests in a poller trace. -/
def countPolls : List PollEv → Nat
  | [] => 0
  | PollEv.tokenRequest :: r => countPolls r + 1
  | _ :: r => countPolls r

theorem branchScan_all_zero (env : AnalyzeEnv) (pOwner pName fOwner : String)
    (l : List Branch)
    (h : ∀ b ∈ l, env.compare pOwner pName b.name (fOwner ++ ":" ++ b.name) = .ok 0) :
    (branchScan env pOwner pName fOwner l).1 = false := by
  induction l with
  | nil => simp [branchScan]
  | cons b rest ih =>
    have hb := h b (List.mem_cons_self b rest)
    simp only [branchScan, hb]
    exact ih fun x hx => h x (List.mem_cons_of_mem _ hx)

/-- C1: if a fork reaches the per-branch comparison phase (non-empty branch
list, branch count within the threshold, resolvable parent with owner) and
every branch's comparison completes with ahead-by exactly 0 (so none fails),
then `analyze_fork` returns `Ok` with `is_useless = true`, whatever the
completion order. -/
theorem analyze_fork_all_zero_useless
    (maxBranches : Nat) (env : AnalyzeEnv) (repo fetched : Repository)
    (o po : Owner) (p : ParentRepo) (branches order : List Branch)
    (h_owner : repo.owner = some o)
    (h_get : env.getRepo o.login repo.name = .ok fetched)
    (h_list : env.listBranches o.login repo.name = .ok branches)
    (h_ne : branches ≠ [])
    (h_le : branches.length ≤ maxBranches)
    (h_parent : fetched.parent = some p)
    (h_powner : p.owner = some po)
    (h_perm : order.Perm branches)
    (h_cmp : ∀ b ∈ branches,
      env.compare po.login p.name b.name (o.login ++ ":" ++ b.name) = .ok 0) :
    (analyze_fork maxBranches env repo order).1 =
      .ok { repo := fetched, is_useless := true } := by
  have hscan : (branchScan env po.login p.name o.login order).1 = false :=
    branchScan_all_zero _ _ _ _ _ fun b hb => h_cmp b (h_perm.mem_iff.mp hb)
  simp [analyze_fork, h_owner, h_get, h_list, h_parent, h_powner,
    List.isEmpty_iff, h_ne, Nat.not_lt.mpr h_le, hscan]

/-- Concrete instance of `analyze_fork_all_zero_useless`: one branch, its
comparison returns ahead-by 0, and the fork is classified useless. -/
theorem analyze_fork_all_zero_useless_witness :
    (analyze_fork 50 envAllZero repoW [⟨"main"⟩]).1 =
      .ok { repo := fetchedW, is_useless := true } :=
  analyze_fork_all_zero_useless 50 envAllZero repoW fetchedW ⟨"alice"⟩ ⟨"upstream"⟩
    parentW [⟨"main"⟩] [⟨"main"⟩] rfl rfl rfl (by decide) (by decide) rfl rfl
    (List.Perm.refl _) (fun b _ => rfl)

/-- C2 counterexample: a fork whose re-fetched snapshot has no resolvable
parent but whose branch list (2 branches) exceeds `maxBranches = 1` is
classified with `is_useless = false`, because the threshold check at
src/analyzer.rs line 61 returns before the parent check at line 68.  This
refutes the claim that every fork with no resolvable parent gets
`is_useless = true` irrespective of branch count. -/
theorem analyze_fork_no_parent_over_threshold_not_useless :
    (analyze_fork 1 envTwoBranchesNoParent repoW [⟨"main"⟩, ⟨"dev"⟩]).1 =
      .ok { repo := fetchedNoParent, is_useless := false } ∧
    fetchedNoParent.parent = none :=
  ⟨rfl, rfl⟩

/-- C2 (amended): for every fork with no resolvable parent whose fetched
branch list is within the `maxBranches` threshold, `analyze_fork` returns
`Ok` with `is_useless = true`. -/
theorem analyze_fork_no_parent_useless
    (maxBranches : Nat) (env : AnalyzeEnv) (repo fetched : Repository)
    (o : Owner) (branches order : List Branch)
    (h_owner : repo.owner = some o)
    (h_get : env.getRepo o.login repo.name = .ok fetched)
    (h_list : env.listBranches o.login repo.name = .ok branches)
    (h_le : branches.length ≤ maxBranches)
    (h_parent : fetched.parent = none) :
    (analyze_fork maxBranches env repo order).1 =
      .ok { repo := fetched, is_useless := true } := by
  by_cases hb : branches.isEmpty <;>
    simp [analyze_fork, h_owner, h_get, h_list, hb, Nat.not_lt.mpr h_le, h_parent]

/-- Concrete instance of `analyze_fork_no_parent_useless`: one branch, no
resolvable parent, classified useless. -/
theorem analyze_fork_no_parent_useless_witness :
    (analyze_fork 50 envOneBranchNoParent repoW [⟨"main"⟩]).1 =
      .ok { repo := fetchedNoParent, is_useless := true } :=
  analyze_fork_no_parent_useless 50 envOneBranchNoParent repoW fetchedNoParent
    ⟨"alice"⟩ [⟨"main"⟩] [⟨"main"⟩] rfl rfl rfl (by decide) rfl

/-- C3 counterexample: a transient comparison failure (not the
missing-upstream-branch case) does not surface as an error for the fork —
`analyze_fork` returns `Ok` with `is_useless = false`, exactly as in the
missing-branch path (src/analyzer.rs lines 120–124 match any `Err(_)`). -/
theorem analyze_fork_transient_failure_is_ok :
    (analyze_fork 50 envTransientFailure repoW [⟨"main"⟩]).1 =
      .ok { repo := fetchedW, is_useless := false } ∧
    envTransientFailure.compare "upstream" "proj" "main" "alice:main" =
      .error (.transient "connection reset") :=
  ⟨rfl, rfl⟩

/-- C3 (amended): during per-branch comparison, a comparison failure of any
kind — transient transport failure included — is treated as a positive
divergence signal: `analyze_fork` returns `Ok` with `is_useless = false`
rather than an error. -/
theorem analyze_fork_compare_failure_not_useless
    (maxBranches : Nat) (env : AnalyzeEnv) (repo fetched : Repository)
    (o po : Owner) (p : ParentRepo) (branches : List Branch)
    (b : Branch) (rest : List Branch) (err : CompareError)
    (h_owner : repo.owner = some o)
    (h_get : env.getRepo o.login repo.name = .ok fetched)
    (h_list : env.listBranches o.login repo.name = .ok branches)
    (h_ne : branches ≠ [])
    (h_le : branches.length ≤ maxBranches)
    (h_parent : fetched.parent = some p)
    (h_powner : p.owner = some po)
    (h_perm : (b :: rest).Perm branches)
    (h_cmp : env.compare po.login p.name b.name (o.login ++ ":" ++ b.name) = .error err) :
    (analyze_fork maxBranches env repo (b :: rest)).1 =
      .ok { repo := fetched, is_useless := false } := by
  simp [analyze_fork, h_owner, h_get, h_list, h_parent, h_powner,
    List.isEmpty_iff, h_ne, Nat.not_lt.mpr h_le, branchScan, h_cmp]

/-- Concrete instance of `analyze_fork_compare_failure_not_useless` with a
transient error. -/
theorem analyze_fork_compare_failure_not_useless_witness :
    (analyze_fork 50 envTransientFailure repoW [⟨"main"⟩]).1 =
      .ok { repo := fetchedW, is_useless := false } :=
  analyze_fork_compare_failure_not_useless 50 envTransientFailure repoW fetchedW
    ⟨"alice"⟩ ⟨"upstream"⟩ parentW [⟨"main"⟩] ⟨"main"⟩ []
    (.transient "connection reset") rfl rfl rfl (by decide) (by decide) rfl rfl
    (List.Perm.refl _) rfl

/-- C9: the branch-count threshold check (src/analyzer.rs line 61) is
evaluated before the parent check (line 68): whenever the fetched branch list
is strictly longer than `maxBranches`, the result is `Ok` with
`is_useless = false` and the trace contains no comparison call — with no
hypothesis at all on the fetched repository's parent. -/
theorem analyze_fork_threshold_before_parent
    (maxBranches : Nat) (env : AnalyzeEnv) (repo fetched : Repository)
    (o : Owner) (branches order : List Branch)
    (h_owner : repo.owner = some o)
    (h_get : env.getRepo o.login repo.name = .ok fetched)
    (h_list : env.listBranches o.login repo.name = .ok branches)
    (h_gt : maxBranches < branches.length) :
    (analyze_fork maxBranches env repo order).1 =
      .ok { repo := fetched, is_useless := false } ∧
    (analyze_fork maxBranches env repo order).2 =
      [AEvent.getRepo o.login repo.name, AEvent.listBranches o.login repo.name] := by
  have h_ne : branches ≠ [] := by
    intro h
    rw [h] at h_gt
    exact Nat.not_lt_zero _ h_gt
  constructor <;>
    simp [analyze_fork, h_owner, h_get, h_list, List.isEmpty_iff, h_ne, h_gt]

/-- Concrete instance of `analyze_fork_threshold_before_parent`: 2 branches,
threshold 1, parent unresolvable — still `is_useless = false`, and only the
two fetch calls appear in the trace. -/
theorem analyze_fork_threshold_before_parent_witness :
    (analyze_fork 1 envTwoBranchesNoParent repoW []).1 =
      .ok { repo := fetchedNoParent, is_useless := false } ∧
    (analyze_fork 1 envTwoBranchesNoParent repoW []).2 =
      [AEvent.getRepo "alice" "proj", AEvent.listBranches "alice" "proj"] :=
  analyze_fork_threshold_before_parent 1 envTwoBranchesNoParent repoW
    fetchedNoParent ⟨"alice"⟩ [⟨"main"⟩, ⟨"dev"⟩] [] rfl rfl rfl (by decide)

/-- C4 counterexample: with completion order `[Ok A, Err, Ok B]`, the
collection loop of `main` returns the error — fork B's result is not
collected, so one fork's failure does halt the batch, refuting the claim
that the Coordinator records the error and still collects every other
fork's result. -/
theorem collectForkInfos_halts_on_error :
    collectForkInfos
      [.ok ⟨fetchedW, true⟩, .error "rate limited", .ok ⟨fetchedNoParent, true⟩] =
      .error "rate limited" :=
  rfl

/-- C4 (amended): `main`'s collection loop propagates the first per-fork
error out of `main` (`result??`), discarding the results of forks later in
completion order; only when no fork fails are all results collected. -/
theorem collectForkInfos_error_propagates :
    (∀ (pre : List ForkInfo) (e : String) (post : List (Except String ForkInfo)),
      collectForkInfos (pre.map Except.ok ++ .error e :: post) = .error e) ∧
    (∀ l : List ForkInfo, collectForkInfos (l.map Except.ok) = .ok l) := by
  constructor
  · intro pre e post
    induction pre with
    | nil => rfl
    | cons i rest ih => simp [collectForkInfos, ih]
  · intro l
    induction l with
    | nil => rfl
    | cons i rest ih => simp [collectForkInfos, ih]

/-- C5 counterexample: `delete_repo` issues its HTTP request with the
gateway-permit hold depth still 0 — the deletion call never goes through the
fixed-capacity admission gate, refuting the claim that every outbound remote
call does. -/
theorem delete_repo_bypasses_gate :
    allCallsGated (delete_repo_trace "alice" "proj") 0 = false ∧
    countHttp (delete_repo_trace "alice" "proj") = 1 :=
  ⟨rfl, rfl⟩

theorem allCallsGated_list_branches_go (owner repo : String)
    (pages : List (List Branch × Bool)) :
    ∀ p : Nat, allCallsGated (list_branches_go owner repo p pages).2 0 = true := by
  induction pages with
  | nil => intro p; rfl
  | cons pg rest ih =>
    intro p
    obtain ⟨items, hasNext⟩ := pg
    cases hasNext
    · simp [list_branches_go, allCallsGated]
    · simp [list_branches_go, allCallsGated, ih]

/-- C5 (amended): only `get_repo`, `compare_commits` and the per-page
requests of `list_branches` go through the admission gate; `delete_repo` and
the repository-listing loop issue their requests without ever touching the
gate, so the ≤ N in-flight bound covers only the gated operations. -/
theorem gate_covers_only_some_operations :
    (∀ owner repo : String, allCallsGated (get_repo_trace owner repo) 0 = true) ∧
    (∀ owner repo base head : String,
      allCallsGated (compare_commits_trace owner repo base head) 0 = true) ∧
    (∀ (owner repo : String) (pages : List (List Branch × Bool)),
      allCallsGated (list_branches owner repo pages).2 0 = true) ∧
    (∀ owner repo : String, allCallsGated (delete_repo_trace owner repo) 0 = false) ∧
    (∀ (owner : String) (pg : List Repository × Bool)
      (rest : List (List Repository × Bool)),
      allCallsGated (list_user_repos_trace owner 1 (pg :: rest)) 0 = false) := by
  refine ⟨fun _ _ => rfl, fun _ _ _ _ => rfl, ?_, fun _ _ => rfl, ?_⟩
  · intro owner repo pages
    exact allCallsGated_list_branches_go owner repo pages 1
  · intro owner pg rest
    obtain ⟨items, hasNext⟩ := pg
    cases hasNext <;> rfl

theorem callsDuringCoordPermit_map_remote (l : List AEvent)
    (rest : List CoordEvent) (d : Nat) (hd : 0 < d) :
    callsDuringCoordPermit (l.map CoordEvent.remoteCall ++ rest) d =
      l.length + callsDuringCoordPermit rest d := by
  induction l with
  | nil => simp
  | cons a t ih =>
    show (if 0 < d then 1 else 0) +
        callsDuringCoordPermit (t.map CoordEvent.remoteCall ++ rest) d =
      (a :: t).length + callsDuringCoordPermit rest d
    rw [if_pos hd, ih, List.length_cons]
    omega

/-- C6 counterexample: for a fork with two branches, all four remote calls of
its analysis — the re-fetch, the branch listing and both branch comparisons —
happen while the coordinator permit is held, refuting the claim that the
Coordinator permit is never held across a fork's entire multi-branch
analysis. -/
theorem coord_permit_held_counterexample :
    callsDuringCoordPermit
      (forkTaskTrace 50 envTwoBranchesAllZero repoW [⟨"main"⟩, ⟨"dev"⟩]) 0 = 4 ∧
    (analyze_fork 50 envTwoBranchesAllZero repoW [⟨"main"⟩, ⟨"dev"⟩]).2.length = 4 :=
  ⟨rfl, rfl⟩

/-- C6 (amended): the Gateway permit is indeed held only for a single remote
call (`compare_commits` is an acquire/request/release triple), but the
Coordinator permit is acquired before `analyze_fork` starts and dropped only
after it returns: every remote call of the fork's analysis happens while the
coordinator permit is held. -/
theorem coord_permit_spans_analysis :
    (∀ (maxBranches : Nat) (env : AnalyzeEnv) (repo : Repository)
      (order : List Branch),
      callsDuringCoordPermit (forkTaskTrace maxBranches env repo order) 0 =
        (analyze_fork maxBranches env repo order).2.length) ∧
    (∀ owner repo base head : String,
      perCallGated (compare_commits_trace owner repo base head) = true) := by
  refine ⟨?_, fun _ _ _ _ => rfl⟩
  intro m env repo order
  show callsDuringCoordPermit
      ((analyze_fork m env repo order).2.map CoordEvent.remoteCall ++
        [CoordEvent.progressInc, CoordEvent.coordRelease]) 1 = _
  rw [callsDuringCoordPermit_map_remote _ _ 1 (by decide)]
  rfl

theorem list_branches_go_spec (owner repo : String) (ps : List (List Branch))
    (last : List Branch) :
    ∀ p : Nat,
      list_branches_go owner repo p (ps.map (fun l => (l, true)) ++ [(last, false)]) =
        (some (ps.flatten ++ last),
         (List.range' p (ps.length + 1)).flatMap fun q =>
           [GhEvent.acquire, GhEvent.http (branchPageCall owner repo q 100),
            GhEvent.release]) := by
  induction ps with
  | nil =>
    intro p
    simp [list_branches_go, List.range']
  | cons l rest ih =>
    intro p
    simp [list_branches_go, ih (p + 1), List.range'_succ]

/-- C8: the paginated branch listing starts at page 1 with page size 100,
requests successive pages until the forge signals no next page, and returns
the concatenation of all pages, acquiring one gate permit per page request
and releasing it before the next page; in particular, for pages of 100, 100
and 37 items with a next-page signal on pages 1 and 2 only, it returns
exactly 237 items via exactly 3 page requests, each one its own
acquire/request/release triple. -/
theorem list_branches_pagination :
    (∀ (owner repo : String) (ps : List (List Branch)) (last : List Branch),
      list_branches owner repo (ps.map (fun l => (l, true)) ++ [(last, false)]) =
        (some (ps.flatten ++ last),
         (List.range' 1 (ps.length + 1)).flatMap fun q =>
           [GhEvent.acquire, GhEvent.http (branchPageCall owner repo q 100),
            GhEvent.release])) ∧
    (list_branches "alice" "proj" pages237).1.map List.length = some 237 ∧
    countHttp (list_branches "alice" "proj" pages237).2 = 3 ∧
    perCallGated (list_branches "alice" "proj" pages237).2 = true := by
  refine ⟨fun owner repo ps last => list_branches_go_spec owner repo ps last 1,
    ?_, rfl, rfl⟩
  rfl

/-- C7: with responses `authorization_pending, slow_down, token` and initial
interval 5 seconds (expiry window 900s), the poller sleeps 5s and polls
pending, sleeps 5s and polls `slow_down` (raising the interval by exactly 5
seconds), then sleeps 10s and succeeds on the third poll — exactly three
token-exchange requests in total. -/
theorem poll_for_token_slow_down_scenario :
    poll_for_token [pendingResp, slowDownResp, tokenResp] 5 900 =
      (.ok "gho_token",
       [.sleep 5, .tokenRequest, .sleep 5, .tokenRequest, .sleep 10, .tokenRequest]) ∧
    countPolls (poll_for_token [pendingResp, slowDownResp, tokenResp] 5 900).2 = 3 :=
  ⟨rfl, rfl⟩

/-- C10: a token-exchange response with no access token, no error code and no
error description never produces a failure of its own: the loop falls through
and polls again, so a run of such responses can only terminate through the
expiry-timeout check — the outcome is either the timeout error or the loop
still polling when the response list runs out. -/
theorem poll_for_token_empty_responses_no_failure
    (rs : List TokenResponse) (h : ∀ r ∈ rs, r = emptyResp) :
    ∀ pollInterval elapsed expiresIn : Nat,
      (poll_for_token_loop expiresIn rs pollInterval elapsed).1 =
          .err (timeoutMsg expiresIn) ∨
      ((poll_for_token_loop expiresIn rs pollInterval elapsed).1).isPending = true := by
  induction rs with
  | nil =>
    intro i e exp
    by_cases h1 : exp ≤ e
    · left
      simp [poll_for_token_loop, h1]
    · by_cases h2 : exp ≤ e + i
      · left
        simp [poll_for_token_loop, h1, h2]
      · right
        simp [poll_for_token_loop, h1, h2, PollResult.isPending]
  | cons r rest ih =>
    intro i e exp
    have hr : r = emptyResp := h r (List.mem_cons_self r rest)
    have ih' := ih fun x hx => h x (List.mem_cons_of_mem _ hx)
    subst hr
    by_cases h1 : exp ≤ e
    · left
      simp [poll_for_token_loop, h1]
    · by_cases h2 : exp ≤ e + i
      · left
        simp [poll_for_token_loop, h1, h2]
      · have := ih' i (e + i) exp
        simpa [poll_for_token_loop, h1, h2, emptyResp] using this

/-- Concrete instance of `poll_for_token_empty_responses_no_failure`: two
contentless responses, interval 5s, window 900s — the loop is still polling,
having produced no failure. -/
theorem poll_for_token_empty_responses_no_failure_witness :
    (poll_for_token_loop 900 [emptyResp, emptyResp] 5 0).1 = .err (timeoutMsg 900) ∨
    ((poll_for_token_loop 900 [emptyResp, emptyResp] 5 0).1).isPending = true :=
  poll_for_token_empty_responses_no_failure [emptyResp, emptyResp] (by decide) 5 0 900

end Disfork
